import Mathlib

/-!
Verification of the cortex_pkm backlog / note-graph core.

Source text is modelled at the level of lines (a file is a `List String`,
a line a `String` whose characters are its `String.data`).  String
primitives mirror the Python ones used by the source (`str.strip`,
`str.startswith`, `str.split`, substring search), implemented over
`List Char` so that every definition evaluates by kernel reduction.
-/

namespace Cortex

/-- Predicate `isLeadChars p l` is true when `p` is a leading segment of `l`
(Python `str.startswith` over explicit characters). -/
def isLeadChars : List Char → List Char → Bool
  | [], _ => true
  | _ :: _, [] => false
  | c :: cs, d :: ds => if c = d then isLeadChars cs ds else false

/-- Python `s.startswith(p)`. -/
def pyStartsWith (s p : String) : Bool := isLeadChars p.data s.data

/-- Python `s.endswith(p)`. -/
def pyEndsWith (s p : String) : Bool := isLeadChars p.data.reverse s.data.reverse

/-- Python `s.strip()`: drop whitespace from both ends. -/
def pyStrip (s : String) : String :=
  String.mk (((s.data.dropWhile Char.isWhitespace).reverse.dropWhile Char.isWhitespace).reverse)

/-- Helper for `splitLines`: `cur` holds the characters of the current
line in reverse. -/
def splitLinesAux : List Char → List Char → List String
  | [], cur => [String.mk cur.reverse]
  | c :: cs, cur =>
    if c = '\n' then String.mk cur.reverse :: splitLinesAux cs []
    else splitLinesAux cs (c :: cur)

/-- Python `s.split("\n")` (keeps empty pieces, never returns `[]`). -/
def splitLines (s : String) : List String := splitLinesAux s.data []

/-- Python `"\n".join(lines)`. -/
def joinLines : List String → String
  | [] => ""
  | [l] => l
  | l :: ls => l ++ "\n" ++ joinLines ls

/-- Python substring test `needle in hay`. -/
def isSubChars (needle : List Char) : List Char → Bool
  | [] => needle.isEmpty
  | c :: cs => isLeadChars needle (c :: cs) || isSubChars needle cs

/-- Python `s.lower()` (ASCII as used by the source). -/
def pyLower (s : String) : String := String.mk (s.data.map Char.toLower)

/-! ## Inbox parsing — embeds `src/cor/commands/process.py` lines 43–58 -/

/-- The heading test of the scan loop: `line.strip() == "## Inbox"`. -/
def isInboxHeading (l : String) : Bool := pyStrip l = "## Inbox"

/-- The item test and capture of the scan loop:
`line.strip().startswith("- ") and len(line.strip()) > 2`, then
`item_text = line.strip()[2:].strip()` kept only if non-empty. -/
def inboxItem? (l : String) : Option String :=
  let s := pyStrip l
  if pyStartsWith s "- " && decide (s.data.length > 2) then
    let t := pyStrip (String.mk (s.data.drop 2))
    if t = "" then none else some t
  else none

/-- The scan loop of `process` (process.py lines 44–58): `i` is the index of
the current line, the `Bool` is the `in_inbox` flag.  A line stripping to
`## Inbox` sets the flag and is skipped (`continue`) even when the flag is
already set; once in the inbox, a line starting with `## ` ends the scan
(`break`). -/
def parseInboxAux : List String → Nat → Bool → List (Nat × String)
  | [], _, _ => []
  | l :: ls, i, inInbox =>
    if isInboxHeading l then parseInboxAux ls (i + 1) true
    else if inInbox then
      if pyStartsWith l "## " then []
      else
        match inboxItem? l with
        | some t => (i, t) :: parseInboxAux ls (i + 1) true
        | none => parseInboxAux ls (i + 1) true
    else parseInboxAux ls (i + 1) false

/-- Function `parse_inbox`: the items of the `## Inbox` section with their original
line indices (process.py lines 43–58). -/
def parse_inbox (lines : List String) : List (Nat × String) :=
  parseInboxAux lines 0 false

/-- Index of the first line exactly equal to `## Inbox` (the claim C2
wording of the heading search). -/
def firstExactInboxIdx : List String → Option Nat
  | [] => none
  | l :: ls => if l = "## Inbox" then some 0 else (firstExactInboxIdx ls).map (· + 1)

/-- Index of the first line stripping to `## Inbox` (the heading search the
code performs). -/
def firstInboxIdx : List String → Option Nat
  | [] => none
  | l :: ls => if isInboxHeading l then some 0 else (firstInboxIdx ls).map (· + 1)

/-- Pair each element with its index, starting at `n`. -/
def enumF : Nat → List String → List (Nat × String)
  | _, [] => []
  | n, l :: ls => (n, l) :: enumF (n + 1) ls

/-- The item test as claim C2 words it: a (raw) list line `- <text>` with
non-empty text. -/
def claimItem? (l : String) : Option String :=
  if pyStartsWith l "- " then
    let t := pyStrip (String.mk (l.data.drop 2))
    if t = "" then none else some t
  else none

/-- Function `parse_inbox` as claim C2 states it: items strictly after the first
line exactly equal to `## Inbox` and before the next line starting with
`## ` (or end of file). -/
def parseInboxClaimed (lines : List String) : List (Nat × String) :=
  match firstExactInboxIdx lines with
  | none => []
  | some k =>
    ((enumF (k + 1) (lines.drop (k + 1))).takeWhile
        (fun p => !pyStartsWith p.2 "## ")).filterMap
      (fun p => (claimItem? p.2).map (fun t => (p.1, t)))

/-- Function `parse_inbox` as amended: items are the non-empty list lines (stripped)
after the first line stripping to `## Inbox` and before the next line that
starts with `## ` but does not itself strip to `## Inbox`; lines stripping
to `## Inbox` are skipped and do not end the section. -/
def parseInboxAmended (lines : List String) : List (Nat × String) :=
  match firstInboxIdx lines with
  | none => []
  | some k =>
    ((enumF (k + 1) (lines.drop (k + 1))).takeWhile
        (fun p => isInboxHeading p.2 || !pyStartsWith p.2 "## ")).filterMap
      (fun p =>
        if isInboxHeading p.2 then none
        else (inboxItem? p.2).map (fun t => (p.1, t)))

/-! ## Triage session and backlog rebuild — embeds `process.py` lines 70–221 -/

/-- A disposition chosen for one inbox item. -/
inductive Disp
  | keep
  | delete
  | convert
deriving DecidableEq

/-- The interactive loop of `process` (lines 70–104 and 178–182): the
dispositions `ds` are applied to the items in order; when `ds` runs out
with items remaining, the user quit (`q`) and, as in lines 84–93, the
remaining item texts are appended to `items_to_keep` while their line
indices are NOT added to `items_to_remove`.  Returns
`(items_to_remove, items_to_keep)`. -/
def sessionLists : List (Nat × String) → List Disp → List Nat × List String
  | items, [] => ([], items.map Prod.snd)
  | [], _ :: _ => ([], [])
  | (i, t) :: rest, d :: ds =>
    let p := sessionLists rest ds
    match d with
    | Disp.keep => (i :: p.1, t :: p.2)
    | Disp.delete => (i :: p.1, p.2)
    | Disp.convert => (i :: p.1, p.2)

/-- Lines surviving removal (process.py lines 185–189). -/
def removeLines (lines : List String) (rem : List Nat) : List String :=
  (lines.enum.filter (fun p => !rem.contains p.1)).map Prod.snd

/-- Re-insertion of kept items (process.py lines 196–215): every line is
copied and each line stripping to `## Inbox` is followed by the kept items;
when no such line exists a `## Inbox` heading and the kept items are
appended at the end. -/
def insertKept (lines kept : List String) : List String :=
  let ins := lines.flatMap
    (fun l => if isInboxHeading l then l :: kept.map (fun t => "- " ++ t) else [l])
  if lines.any (fun l => isInboxHeading l) then ins
  else ins ++ "## Inbox" :: kept.map (fun t => "- " ++ t)

/-- The rebuild step of `process` (lines 184–215): remove the removed line
indices, then, when any item was kept, re-insert the kept items after the
`## Inbox` heading. -/
def rebuildBacklog (lines : List String) (rem : List Nat) (kept : List String) : List String :=
  let newLines := removeLines lines rem
  if kept.isEmpty then newLines else insertKept newLines kept

/-- The whole `process` dataflow on the backlog lines: parse the inbox,
return `none` (no write) when it is empty (lines 60–62), otherwise run the
session and rebuild. -/
def processBacklogLines (lines : List String) (ds : List Disp) : Option (List String) :=
  let items := parse_inbox lines
  if items.isEmpty then none
  else
    let p := sessionLists items ds
    some (rebuildBacklog lines p.1 p.2)

/-- Command `process` at the text level (lines 40–41 split the text, lines 217–221
join it back and ensure a trailing newline). `none` means `backlog.md` is
not written. -/
def processBacklogText (content : String) (ds : List Disp) : Option String :=
  let lines := splitLines content
  let items := parse_inbox lines
  if items.isEmpty then none
  else
    let p := sessionLists items ds
    let nc := joinLines (rebuildBacklog lines p.1 p.2)
    some (if pyEndsWith nc "\n" then nc else nc ++ "\n")

/-! ## Task status and checkbox glyphs

The status vocabulary and the status-to-glyph mapping (spec §4.4); the
engine itself (`set_status` / `sync_parent_checkbox` in `cor/core`) is not
under `src/`, so it is modelled from the spec; the glyph vocabulary and the
checkbox extraction are embedded from `src/tests/conftest.py`. -/

/-- The recognized status vocabulary (spec §4.4). -/
inductive Status
  | todo
  | doing
  | done
  | blocked
  | dropped
deriving DecidableEq

/-- Modelled from the spec (§4.4): the total status-to-glyph mapping
`todo -> ' '`, `done -> 'x'`, `doing -> '.'`, `dropped -> 'o'`,
`blocked -> '~'`. -/
def glyph : Status → Char
  | Status.todo => ' '
  | Status.done => 'x'
  | Status.doing => '.'
  | Status.dropped => 'o'
  | Status.blocked => '~'

/-- The status names as written in front matter. -/
def statusName : Status → String
  | Status.todo => "todo"
  | Status.done => "done"
  | Status.doing => "doing"
  | Status.dropped => "dropped"
  | Status.blocked => "blocked"

/-- The glyph vocabulary of the checkbox pattern in
`src/tests/conftest.py` line 310: the character class of
`- \[([x .o~])\]`. -/
def glyphChars : List Char := ['x', ' ', '.', 'o', '~']

/-- Split a character list at the first occurrence of `c`; `none` when `c`
does not occur. -/
def breakOn (c : Char) : List Char → Option (List Char × List Char)
  | [] => none
  | x :: xs =>
    if x = c then some ([], xs)
    else (breakOn c xs).map (fun p => (x :: p.1, p.2))

/-- The characters of a checklist line `- [<g>] [<title>](<link>)`
(spec §6 checklist line format). -/
def checklistChars (g : Char) (title link : List Char) : List Char :=
  '-' :: ' ' :: '[' :: g :: ']' :: ' ' :: '[' :: (title ++ ']' :: '(' :: (link ++ [')']))

/-- A checklist line `- [<g>] [<title>](<link>)` as a string. -/
def checklistLine (g : Char) (title link : String) : String :=
  String.mk (checklistChars g title.data link.data)

/-- Final step of checklist parsing: the remainder after the link must be
exactly the closing `)`. -/
def finishLink (g : Char) (title : List Char) (q : List Char × List Char) :
    Option (Char × List Char × List Char) :=
  if q.2.isEmpty then some (g, title, q.1) else none

/-- Middle step of checklist parsing: after the title, expect `(`,
a non-empty title, and a link closed by `)`. -/
def parseAfterTitle (g : Char) (title rest1 : List Char) :
    Option (Char × List Char × List Char) :=
  match rest1 with
  | '(' :: rest2 =>
    if title.isEmpty then none
    else (breakOn ')' rest2).bind (finishLink g title)
  | _ => none

/-- Parse a checklist line into glyph, title and link.  The line must be
exactly `- [<g>] [<title>](<link>)` with `g` in the glyph vocabulary, the
title non-empty and free of `]`, and the link free of `)` (spec §6). -/
def parseChecklist (cs : List Char) : Option (Char × List Char × List Char) :=
  match cs with
  | '-' :: ' ' :: '[' :: g :: ']' :: ' ' :: '[' :: rest =>
    if g ∈ glyphChars then (breakOn ']' rest).bind (fun p => parseAfterTitle g p.1 p.2)
    else none
  | _ => none

/-- Scan for `](` after the first title character (conftest.py line 310,
the `[^\]]+\]\(` part of the pattern). -/
def scanTitle : List Char → Option (List Char)
  | [] => none
  | c :: cs =>
    if c = ']' then
      match cs with
      | '(' :: rest => some rest
      | _ => none
    else scanTitle cs

/-- Consume a non-empty `]`-free title followed by `](`, returning the
remainder. -/
def titleRest : List Char → Option (List Char)
  | [] => none
  | c :: cs => if c = ']' then none else scanTitle cs

/-- The link part of the pattern of conftest.py line 310:
`\((?:archive/)?<task>\)` — the remainder after `](` starts with the task
name, optionally prefixed `archive/`, followed by `)`. -/
def checkLink (task rest : List Char) : Bool :=
  isLeadChars ("archive/".data ++ task ++ [')']) rest || isLeadChars (task ++ [')']) rest

/-- Match the conftest.py `get_task_checkbox` pattern at the head of `cs`,
returning the glyph. -/
def matchAt (task cs : List Char) : Option Char :=
  match cs with
  | '-' :: ' ' :: '[' :: g :: ']' :: ' ' :: '[' :: rest =>
    if g ∈ glyphChars then
      (titleRest rest).bind (fun rem => if checkLink task rem then some g else none)
    else none
  | _ => none

/-- Search as `re.search` of the pattern within one line: try every start position,
leftmost match wins. -/
def searchLine (task : List Char) : List Char → Option Char
  | [] => none
  | c :: cs =>
    match matchAt task (c :: cs) with
    | some g => some g
    | none => searchLine task cs

/-- Embeds `get_task_checkbox` of `src/tests/conftest.py` lines 303–312:
the checkbox glyph of the first checklist line referencing `task`
(tolerating an `archive/` prefix), or `none`. -/
def get_task_checkbox (lines : List String) (task : String) : Option Char :=
  match lines with
  | [] => none
  | l :: ls =>
    match searchLine task.data l.data with
    | some g => some g
    | none => get_task_checkbox ls task

/-- Does this line reference `noteId` as a checklist entry (exact link
match, tolerant of an `archive/` prefix)?  Modelled from the spec (§4.4). -/
def syncTarget (noteId : String) (l : String) : Bool :=
  match parseChecklist l.data with
  | some (_, _, link) => link = noteId.data || link = ("archive/" ++ noteId).data
  | none => false

/-- Rewrite only the checkbox glyph of a checklist line.  Modelled from the
spec (§4.4). -/
def rewriteGlyph (s : Status) (l : String) : String :=
  match parseChecklist l.data with
  | some (_, title, link) => String.mk (checklistChars (glyph s) title link)
  | none => l

/-- Modelled from the spec (§4.4): `sync_parent_checkbox` — find the first
checklist line whose link target matches the note identifier and rewrite
only its checkbox glyph; other lines are untouched (`cor/core` is not under
`src/`). -/
def syncParentCheckbox (noteId : String) (s : Status) : List String → List String
  | [] => []
  | l :: ls =>
    if syncTarget noteId l then rewriteGlyph s l :: ls
    else l :: syncParentCheckbox noteId s ls

/-- Embeds `set_status` of `src/tests/conftest.py` lines 290–300: replace
every line starting with `status:` by `status: <new>` (the `re.sub` with
`^status:.*$`, MULTILINE). -/
def setStatusField (lines : List String) (s : Status) : List String :=
  lines.map (fun l => if pyStartsWith l "status:" then "status: " ++ statusName s else l)

/-! ## Task creation from a backlog item — embeds `process.py` lines 150–179

`get_template`, `render_template`, `format_title` and
`add_task_to_project` live in `cor/utils.py`, which is not under `src/`;
they are modelled from the spec (§4.5, §6) and from the task template in
`src/tests/conftest.py` lines 68–83. -/

/-- Modelled from the spec (§3): a title formatted from an identifier
segment.  The exact formatting is unspecified and irrelevant to the claims;
modelled as the identifier itself. -/
def format_title (s : String) : String := s

/-- The task template of `src/tests/conftest.py` lines 68–83 with the
`name`, `parent`, `parent_title` and `date` placeholders substituted
(substitution modelled from the spec, §6 vault layout). -/
def taskTemplate (name parent parentTitle date : String) : List String :=
  ["---",
   "created: " ++ date,
   "modified: " ++ date,
   "type: task",
   "status: todo",
   "due:",
   "priority:",
   "parent: " ++ parent,
   "---",
   "# " ++ name,
   "",
   "[< " ++ parentTitle ++ "](" ++ parent ++ ")",
   "",
   "## Description"]

/-- Embeds process.py lines 164–168: the replacement of the text
`## Description` followed by a newline with itself plus the item text, on
line-structured content: every line ending in `## Description` is followed
by a new line holding the item text. -/
def insertDescription (lines : List String) (item : String) : List String :=
  match lines with
  | [] => []
  | l :: ls =>
    if pyEndsWith l "## Description" then l :: item :: insertDescription ls item
    else l :: insertDescription ls item

/-- Modelled from the spec (§4.5, §6): the checklist entry appended for a
new task — checkbox glyph of a `todo` task, title, link to the task
identifier. -/
def taskEntry (title target : String) : String :=
  "- [" ++ String.singleton (glyph Status.todo) ++ "] [" ++ title ++ "](" ++ target ++ ")"

/-- Insert `entry` at the end of the current section: before the next
`## ` heading, or at the end of the file. -/
def insertAtSectionEnd (entry : String) : List String → List String
  | [] => [entry]
  | l :: ls =>
    if pyStartsWith l "## " then entry :: l :: ls
    else l :: insertAtSectionEnd entry ls

/-- Helper for `add_task_to_project`: find the first line stripping to
`## Tasks` and append the entry to that section. -/
def addTaskAux (entry : String) : List String → List String
  | [] => []
  | l :: ls =>
    if pyStrip l = "## Tasks" then l :: insertAtSectionEnd entry ls
    else l :: addTaskAux entry ls

/-- Modelled from the spec (§4.5): `add_task_to_project` (in
`cor/utils.py`, not under `src/`) — append a checklist entry pointing at
the new task to the `## Tasks` section of the project file. -/
def add_task_to_project (lines : List String) (title target : String) : List String :=
  addTaskAux (taskEntry title target) lines

/-- The lines of the `## Tasks` section: the lines after the first line
stripping to `## Tasks`, up to the next `## ` heading. -/
def tasksSection : List String → List String
  | [] => []
  | l :: ls =>
    if pyStrip l = "## Tasks" then ls.takeWhile (fun x => !pyStartsWith x "## ")
    else tasksSection ls

/-! ## A flat file store for the convert branch (C3, C4) -/

/-- Does a file with this name exist (`filepath.exists()`)? -/
def fileExists (files : List (String × List String)) (name : String) : Bool :=
  files.any (fun f => f.1 == name)

/-- Write a file (`filepath.write_text`), overwriting an existing entry. -/
def setFile : List (String × List String) → String → List String → List (String × List String)
  | [], name, c => [(name, c)]
  | f :: fs, name, c =>
    if f.1 = name then (name, c) :: fs else f :: setFile fs name c

/-- Read a file. -/
def getFile : List (String × List String) → String → Option (List String)
  | [], _ => none
  | f :: fs, name => if f.1 = name then some f.2 else getFile fs name

/-- Embeds process.py lines 150–179, the convert (`p`) branch after a
project and task name were chosen: if the target file exists, report the
collision and change nothing (the `continue` at line 156); otherwise write
the rendered task file, add the task to the project file, and mark the item
line for removal.  The `Bool` result is true when the collision error was
reported. -/
def convertBranch (files : List (String × List String)) (itemsToRemove : List Nat)
    (lineIdx : Nat) (selectedProject taskName itemText date : String) :
    List (String × List String) × List Nat × Bool :=
  let taskFilename := selectedProject ++ "." ++ taskName
  let filepath := taskFilename ++ ".md"
  if fileExists files filepath then
    (files, itemsToRemove, true)
  else
    let content := insertDescription
      (taskTemplate taskName selectedProject (format_title selectedProject) date) itemText
    let files1 := setFile files filepath content
    let projectPath := selectedProject ++ ".md"
    let files2 :=
      match getFile files1 projectPath with
      | some pl =>
        setFile files1 projectPath
          (add_task_to_project pl (format_title taskName) taskFilename)
      | none => files1
    (files2, itemsToRemove ++ [lineIdx], false)

/-! ## Fuzzy resolution (C5)

`resolve_file_fuzzy` lives in `cor/search/fuzzy.py`, which is only
imported by `src/cor/search/__init__.py`; the module itself is not under
`src/`.  It is modelled from the spec (§4.3): score every candidate, keep
the minimum; a unique minimum is returned, a tie is ambiguous, no match is
none.  The score function is a parameter (lower is better, `none` when the
candidate cannot match). -/

/-- The result of fuzzy resolution (spec §4.3). -/
inductive ResolveResult
  | found (best : String)
  | ambiguous (ties : List String)
  | notFound
deriving DecidableEq

/-- The candidates that match, with their scores. -/
def scoredCandidates (score : String → String → Option Nat) (query : String)
    (candidates : List String) : List (String × Nat) :=
  candidates.filterMap (fun c => (score c query).map (fun v => (c, v)))

/-- The minimum of `v` and the scores in `rest`. -/
def minScoreAux (v : Nat) (rest : List (String × Nat)) : Nat :=
  rest.foldl (fun a p => Nat.min a p.2) v

/-- Keep the candidates attaining the minimal score and decide the result
shape. -/
def pickResult (scored : List (String × Nat)) : ResolveResult :=
  match scored with
  | [] => ResolveResult.notFound
  | (c, v) :: rest =>
    match ((c, v) :: rest).filter (fun p => p.2 == minScoreAux v rest) with
    | [w] => ResolveResult.found w.1
    | ws => ResolveResult.ambiguous (ws.map Prod.fst)

/-- Modelled from the spec (§4.3): `resolve(query, candidates)`. -/
def resolve_file_fuzzy (score : String → String → Option Nat) (query : String)
    (candidates : List String) : ResolveResult :=
  pickResult (scoredCandidates score query candidates)

/-- A concrete score function used by the witness: exact equality scores 0,
anything else 7. -/
def demoScore : String → String → Option Nat :=
  fun c q => if c = q then some 0 else some 7

/-! ## Completion of existing names (C7) — embeds `src/cor/completions.py`
lines 71–112

`complete_files_with_fuzzy` lives in `cor/search/completion.py`, not under
`src/`; it is modelled from the spec (§4.3 archived-candidate policy) and
the docstring at completions.py lines 73–75: prefix matching first, fuzzy
fallback, archived results namespaced under `archive/`. -/

/-- Modelled from the spec: combine active and archived candidates —
prefix matches first, fuzzy fallback when there is none; archived matches
are returned under the `archive/` prefix. -/
def complete_files_with_fuzzy (fuzzyMatch : String → String → Bool)
    (searchStem : String) (fileStems archivedStems : List String) : List String :=
  let activeP := fileStems.filter (fun s => pyStartsWith s searchStem)
  let archP := (archivedStems.filter (fun s => pyStartsWith s searchStem)).map
    (fun s => "archive/" ++ s)
  if (activeP ++ archP).isEmpty then
    fileStems.filter (fun s => fuzzyMatch searchStem s) ++
      (archivedStems.filter (fun s => fuzzyMatch searchStem s)).map
        (fun s => "archive/" ++ s)
  else activeP ++ archP

/-- Embeds `complete_existing_name` of `src/cor/completions.py` lines
71–112: `noteStems` are the stems of `*.md` in the notes directory,
`archiveStems` those under `archive/`; `includeArchived` is the
`archived` flag, `archiveDirExists` whether `archive/` exists.
Archived stems are collected only when the flag is set or the query starts
with `archive/` (lines 86–100); `root`, `backlog` and hidden files are
excluded from the active stems (line 95). -/
def complete_existing_name (fuzzyMatch : String → String → Bool)
    (noteStems archiveStems : List String) (includeArchived archiveDirExists : Bool)
    (incomplete : String) : List String :=
  let isArchivePath := pyStartsWith incomplete "archive/"
  let searchStem := if isArchivePath then String.mk (incomplete.data.drop 8) else incomplete
  let fileStems :=
    if isArchivePath then []
    else noteStems.filter
      (fun s => !(s == "root") && !(s == "backlog") && !pyStartsWith s ".")
  let archivedStems :=
    if (includeArchived || isArchivePath) && archiveDirExists then archiveStems else []
  complete_files_with_fuzzy fuzzyMatch searchStem fileStems archivedStems

/-- A concrete fuzzy matcher used by the witness. -/
def demoFuzzy : String → String → Bool := fun _ _ => false

/-! ## Ollama query (C8) — embeds `src/cor/llm.py` lines 17–40

The network call is abstracted as its outcome: the successful response
text, or which `except` clause of `query_ollama` catches the raised
exception (`requests.exceptions.ConnectionError`,
`requests.exceptions.Timeout`, or any other exception with its message). -/

/-- The outcome of the POST to the local Ollama server. -/
inductive OllamaOutcome
  | success (response : String)
  | connectionError
  | timeout
  | otherError (msg : String)

/-- Embeds llm.py line 38: `"model" in error_msg.lower() and "not found" in
error_msg.lower()`. -/
def isModelNotFound (msg : String) : Bool :=
  isSubChars "model".data (pyLower msg).data && isSubChars "not found".data (pyLower msg).data

/-- Embeds `query_ollama` of `src/cor/llm.py` lines 17–40: returns
`(response, none)` on success and `("", some message)` on failure, the
message chosen by the handling clauses. -/
def query_ollama (_prompt model : String) (outcome : OllamaOutcome) : String × Option String :=
  match outcome with
  | OllamaOutcome.success r => (r, none)
  | OllamaOutcome.connectionError => ("", some "Ollama not running. Start with: ollama serve")
  | OllamaOutcome.timeout => ("", some "Ollama request timed out")
  | OllamaOutcome.otherError msg =>
    if isModelNotFound msg then
      ("", some ("Model not found. Install with: ollama pull " ++ model))
    else ("", some ("Ollama error: " ++ msg))

/-! ## Vault path resolution (C9) — embeds `src/cor/config.py` lines 28–47 -/

/-- Steps 2 and 3 of `get_vault_path`: the `vault` entry of the config file
when present and truthy, else the current working directory.  `none` covers
both an absent `vault` key and a null value (both falsy in
`if "vault" in config and config["vault"]`). -/
def vaultFromConfig (configVault : Option String) (cwd : String) : String :=
  match configVault with
  | some v => if v = "" then cwd else v
  | none => cwd

/-- Embeds `get_vault_path` of `src/cor/config.py` lines 28–47:
`CORTEX_VAULT` when set and non-empty (`if env_vault:`), else the config
file entry, else the current directory. -/
def get_vault_path (envVault configVault : Option String) (cwd : String) : String :=
  match envVault with
  | some v => if v = "" then vaultFromConfig configVault cwd else v
  | none => vaultFromConfig configVault cwd

/-! ## Generic helper lemmas -/

theorem strDataAppend (s t : String) : (s ++ t).data = s.data ++ t.data := rfl

theorem strExt (s t : String) (h : s.data = t.data) : s = t := by
  cases s
  cases t
  exact congrArg String.mk h

theorem strAppendAssoc (a b c : String) : a ++ b ++ c = a ++ (b ++ c) := by
  apply strExt
  simp [strDataAppend, List.append_assoc]

theorem strNe (p q s t : String) (hlen : p.data.length = q.data.length)
    (hne : p.data ≠ q.data) : p ++ s ≠ q ++ t := by
  intro h
  apply hne
  have hd : p.data ++ s.data = q.data ++ t.data := by
    rw [← strDataAppend, ← strDataAppend, h]
  have h2 := congrArg (List.take p.data.length) hd
  rw [List.take_left] at h2
  rw [hlen, List.take_left] at h2
  exact h2

theorem strNeLen (s t : String) (h : s.data.length ≠ t.data.length) : s ≠ t := by
  intro he
  exact h (congrArg (fun x => x.data.length) he)

/-! ## Claim C1 — the rebuild after a mid-session quit -/

/-- C1: the claim fails on the code: with backlog lines `## Inbox`, `- A`
and a session that quits immediately (no dispositions), the untouched item
`A` is both left in place and re-inserted after the heading, so the rebuilt
backlog holds it twice instead of exactly once. -/
theorem processQuitDuplicatesUntouched :
    processBacklogLines ["## Inbox", "- A"] [] = some ["## Inbox", "- A", "- A"] := by
  decide

/-! ## Claim C10 — empty inbox means no write -/

/-- C10: when the backlog parses to an empty inbox, `process` returns
before any write: the produced new content is `none`, so `backlog.md` is
left unchanged. -/
theorem processEmptyInboxNoWrite (content : String) (ds : List Disp)
    (h : parse_inbox (splitLines content) = []) :
    processBacklogText content ds = none := by
  simp [processBacklogText, h]

/-- Witness for C10 at a concrete backlog text with a heading and no
items. -/
theorem processEmptyInboxNoWriteWitness :
    processBacklogText "# Backlog\n\n## Inbox\n" [] = none :=
  processEmptyInboxNoWrite "# Backlog\n\n## Inbox\n" [] (by decide)

/-! ## Claim C9 — vault path resolution priority -/

/-- C9: `get_vault_path` resolves with fixed priority: a set, non-empty
`CORTEX_VAULT` environment variable wins; otherwise a present, non-empty
config `vault` entry; otherwise the current working directory. -/
theorem getVaultPathPriority (envVault configVault : Option String) (cwd : String) :
    (∀ v, envVault = some v → v ≠ "" → get_vault_path envVault configVault cwd = v)
    ∧ ((envVault = none ∨ envVault = some "") →
        ∀ c, configVault = some c → c ≠ "" → get_vault_path envVault configVault cwd = c)
    ∧ ((envVault = none ∨ envVault = some "") →
        (configVault = none ∨ configVault = some "") →
        get_vault_path envVault configVault cwd = cwd) := by
  refine ⟨?_, ?_, ?_⟩
  · intro v hv hne
    subst hv
    simp [get_vault_path, hne]
  · rintro (h | h) c hc hne <;> subst h <;> subst hc <;>
      simp [get_vault_path, vaultFromConfig, hne]
  · rintro (h | h) (h2 | h2) <;> subst h <;> subst h2 <;>
      simp [get_vault_path, vaultFromConfig]

/-- Witness for C9: the environment variable overrides a set config
entry. -/
theorem getVaultPathPriorityWitness :
    get_vault_path (some "/env/vault") (some "/cfg/vault") "/cwd" = "/env/vault" :=
  (getVaultPathPriority (some "/env/vault") (some "/cfg/vault") "/cwd").1
    "/env/vault" rfl (by decide)

/-! ## Claim C4 — file collision on convert -/

/-- C4: when the target file `<project>.<task_name>.md` already exists,
the convert branch reports the collision (`true`), leaves the file store —
and hence the existing file content — unchanged, and does not mark the
item line for removal. -/
theorem convertCollisionNoChanges (files : List (String × List String))
    (itemsToRemove : List Nat) (lineIdx : Nat)
    (selectedProject taskName itemText date : String)
    (h : fileExists files (selectedProject ++ "." ++ taskName ++ ".md") = true) :
    convertBranch files itemsToRemove lineIdx selectedProject taskName itemText date
      = (files, itemsToRemove, true) := by
  simp [convertBranch, h]

/-- Witness for C4 at a concrete store holding the colliding file. -/
theorem convertCollisionNoChangesWitness :
    convertBranch [("demo.t1.md", ["old content"])] [] 3 "demo" "t1" "buy milk" "2026-01-01"
      = ([("demo.t1.md", ["old content"])], [], true) :=
  convertCollisionNoChanges [("demo.t1.md", ["old content"])] [] 3 "demo" "t1" "buy milk"
    "2026-01-01" (by decide)

/-! ## Claim C2 — the inbox parse -/

/-- The collection phase of the scan: once in the inbox, the loop is the
`takeWhile` and `filterMap` of the amended characterization. -/
theorem parseInboxAuxCollect (ls : List String) (i : Nat) :
    parseInboxAux ls i true =
      ((enumF i ls).takeWhile
          (fun p => isInboxHeading p.2 || !pyStartsWith p.2 "## ")).filterMap
        (fun p =>
          if isInboxHeading p.2 then none
          else (inboxItem? p.2).map (fun t => (p.1, t))) := by
  induction ls generalizing i with
  | nil => simp [parseInboxAux, enumF]
  | cons l ls ih =>
    by_cases h1 : isInboxHeading l = true
    · simp [parseInboxAux, enumF, h1, List.takeWhile_cons, List.filterMap_cons, ih]
    · by_cases h2 : pyStartsWith l "## " = true
      · simp [parseInboxAux, enumF, h1, h2, List.takeWhile_cons]
      · cases hit : inboxItem? l with
        | some t =>
          simp [parseInboxAux, enumF, h1, h2, hit, List.takeWhile_cons,
            List.filterMap_cons, ih]
        | none =>
          simp [parseInboxAux, enumF, h1, h2, hit, List.takeWhile_cons,
            List.filterMap_cons, ih]

/-- The scanning phase when no line strips to `## Inbox`: nothing is
collected. -/
theorem parseInboxAuxScanNone (ls : List String) (i : Nat)
    (h : firstInboxIdx ls = none) : parseInboxAux ls i false = [] := by
  induction ls generalizing i with
  | nil => simp [parseInboxAux]
  | cons l ls ih =>
    by_cases h1 : isInboxHeading l = true
    · simp [firstInboxIdx, h1] at h
    · have h' : firstInboxIdx ls = none := by
        simpa [firstInboxIdx, h1, Option.map_eq_none'] using h
      simp [parseInboxAux, h1, ih i.succ h']

/-- The scanning phase reaches the first line stripping to `## Inbox` and
switches to collection just after it. -/
theorem parseInboxAuxScanSome (ls : List String) (i k : Nat)
    (h : firstInboxIdx ls = some k) :
    parseInboxAux ls i false = parseInboxAux (ls.drop (k + 1)) (i + k + 1) true := by
  induction ls generalizing i k with
  | nil => simp [firstInboxIdx] at h
  | cons l ls ih =>
    by_cases h1 : isInboxHeading l = true
    · have hk : k = 0 := by
        simp [firstInboxIdx, h1] at h
        omega
      subst hk
      simp [parseInboxAux, h1]
    · have hex : ∃ k', firstInboxIdx ls = some k' ∧ k = k' + 1 := by
        simp only [firstInboxIdx, h1, if_neg] at h
        cases hf : firstInboxIdx ls with
        | none => rw [hf] at h; simp at h
        | some k' =>
          rw [hf] at h
          simp at h
          exact ⟨k', rfl, h.symm⟩
      obtain ⟨k', hf, hk⟩ := hex
      subst hk
      have harith : i + 1 + k' + 1 = i + (k' + 1) + 1 := by omega
      simp only [parseInboxAux, h1, if_neg, if_false, Bool.false_eq_true, ite_false]
      rw [ih (i + 1) k' hf, harith]
      simp [List.drop_succ_cons]

/-- C2 amended: `parse_inbox` collects exactly the non-empty (stripped)
list lines after the first line stripping to `## Inbox` and before the
next line starting with `## ` that does not itself strip to `## Inbox`;
lines stripping to `## Inbox` are skipped and do not end the section; each
item keeps its original line index, in increasing order. -/
theorem parseInboxMatchesAmended (lines : List String) :
    parse_inbox lines = parseInboxAmended lines := by
  unfold parse_inbox parseInboxAmended
  cases hf : firstInboxIdx lines with
  | none => exact parseInboxAuxScanNone lines 0 hf
  | some k =>
    rw [parseInboxAuxScanSome lines 0 k hf, parseInboxAuxCollect]
    norm_num

/-- C2 counterexample: on the lines `## Inbox`, `- A`, `## Inbox`, `- B`
the code keeps collecting past the second `## Inbox` heading (the heading
check precedes the section-ending check and skips the line), while the
claim says collection stops at the next `## ` heading line: the claimed
parse yields only the first item. -/
theorem parseInboxClaimCounterexample :
    parse_inbox ["## Inbox", "- A", "## Inbox", "- B"] = [(1, "A"), (3, "B")]
    ∧ parseInboxClaimed ["## Inbox", "- A", "## Inbox", "- B"] = [(1, "A")] := by
  decide

/-! ## Claim C8 — Ollama query outcomes -/

/-- C8: `query_ollama` returns `(response, none)` on success and
`("", some message)` on failure, and the messages of the four failure
reasons — connection refused, timeout, model not found, other — are
pairwise distinct for every model name and error text. -/
theorem queryOllamaOutcomes (promptText model resp msg : String) :
    query_ollama promptText model (OllamaOutcome.success resp) = (resp, none)
    ∧ query_ollama promptText model OllamaOutcome.connectionError
        = ("", some "Ollama not running. Start with: ollama serve")
    ∧ query_ollama promptText model OllamaOutcome.timeout
        = ("", some "Ollama request timed out")
    ∧ query_ollama promptText model (OllamaOutcome.otherError msg)
        = ("", some (if isModelNotFound msg
            then "Model not found. Install with: ollama pull " ++ model
            else "Ollama error: " ++ msg))
    ∧ ("Ollama not running. Start with: ollama serve" : String)
        ≠ "Ollama request timed out"
    ∧ ("Ollama not running. Start with: ollama serve" : String)
        ≠ "Model not found. Install with: ollama pull " ++ model
    ∧ ("Ollama not running. Start with: ollama serve" : String)
        ≠ "Ollama error: " ++ msg
    ∧ ("Ollama request timed out" : String)
        ≠ "Model not found. Install with: ollama pull " ++ model
    ∧ ("Ollama request timed out" : String) ≠ "Ollama error: " ++ msg
    ∧ "Model not found. Install with: ollama pull " ++ model
        ≠ "Ollama error: " ++ msg := by
  refine ⟨by rfl, by rfl, by rfl, by cases h : isModelNotFound msg <;> simp [query_ollama, h],
    by decide, ?_, ?_, ?_, ?_, ?_⟩
  · have e1 : ("Ollama not running. Start with: ollama serve" : String)
        = "O" ++ "llama not running. Start with: ollama serve" := by decide
    have e2 : ("Model not found. Install with: ollama pull " : String) ++ model
        = "M" ++ ("odel not found. Install with: ollama pull " ++ model) := by
      rw [← strAppendAssoc]
      have h3 : ("Model not found. Install with: ollama pull " : String)
          = "M" ++ "odel not found. Install with: ollama pull " := by decide
      rw [h3]
    rw [e1, e2]
    exact strNe "O" "M" _ _ (by decide) (by decide)
  · have e1 : ("Ollama not running. Start with: ollama serve" : String)
        = "Ollama n" ++ "ot running. Start with: ollama serve" := by decide
    have e2 : ("Ollama error: " : String) ++ msg = "Ollama e" ++ ("rror: " ++ msg) := by
      rw [← strAppendAssoc]
      have : ("Ollama error: " : String) = "Ollama e" ++ "rror: " := by decide
      rw [this]
    rw [e1, e2]
    exact strNe "Ollama n" "Ollama e" _ _ (by decide) (by decide)
  · apply strNeLen
    rw [strDataAppend, List.length_append]
    have h1 : ("Ollama request timed out" : String).data.length = 24 := by decide
    have h2 : ("Model not found. Install with: ollama pull " : String).data.length = 43 := by
      decide
    rw [h1, h2]
    omega
  · have e1 : ("Ollama request timed out" : String)
        = "Ollama r" ++ "equest timed out" := by decide
    have e2 : ("Ollama error: " : String) ++ msg = "Ollama e" ++ ("rror: " ++ msg) := by
      rw [← strAppendAssoc]
      have : ("Ollama error: " : String) = "Ollama e" ++ "rror: " := by decide
      rw [this]
    rw [e1, e2]
    exact strNe "Ollama r" "Ollama e" _ _ (by decide) (by decide)
  · have e1 : ("Model not found. Install with: ollama pull " : String) ++ model
        = "M" ++ ("odel not found. Install with: ollama pull " ++ model) := by
      rw [← strAppendAssoc]
      have : ("Model not found. Install with: ollama pull " : String)
          = "M" ++ "odel not found. Install with: ollama pull " := by decide
      rw [this]
    have e2 : ("Ollama error: " : String) ++ msg = "O" ++ ("llama error: " ++ msg) := by
      rw [← strAppendAssoc]
      have : ("Ollama error: " : String) = "O" ++ "llama error: " := by decide
      rw [this]
    rw [e1, e2]
    exact strNe "M" "O" _ _ (by decide) (by decide)

/-- Witness for C8: a generic failure produces the tagged other-error
message. -/
theorem queryOllamaOutcomesWitness :
    query_ollama "some prompt" "qwen" (OllamaOutcome.otherError "boom")
      = ("", some ("Ollama error: " ++ "boom")) := by
  have hb : isModelNotFound "boom" = false := by decide
  have h := (queryOllamaOutcomes "some prompt" "qwen" "r" "boom").2.2.2.1
  simpa [hb] using h

/-! ## Claim C5 — fuzzy resolution -/

theorem minScoreAuxStep (v : Nat) (q : String × Nat) (rest : List (String × Nat)) :
    minScoreAux v (q :: rest) = minScoreAux (Nat.min v q.2) rest := rfl

theorem natMinIf (a b : Nat) : Nat.min a b = if a ≤ b then a else b := rfl

/-- The computed minimum is a lower bound of the seed and of every score
in the list. -/
theorem minScoreAuxLe (rest : List (String × Nat)) (v : Nat) :
    minScoreAux v rest ≤ v ∧ ∀ p ∈ rest, minScoreAux v rest ≤ p.2 := by
  induction rest generalizing v with
  | nil => simp [minScoreAux]
  | cons q rest ih =>
    have h := ih (Nat.min v q.2)
    rw [minScoreAuxStep]
    refine ⟨le_trans h.1 (Nat.min_le_left _ _), ?_⟩
    intro p hp
    rcases List.mem_cons.mp hp with h1 | h1
    · subst h1
      exact le_trans h.1 (Nat.min_le_right _ _)
    · exact h.2 p h1

/-- The computed minimum is attained: it is the seed or one of the scores
in the list. -/
theorem minScoreAuxMem (rest : List (String × Nat)) (v : Nat) :
    minScoreAux v rest = v ∨ ∃ p ∈ rest, minScoreAux v rest = p.2 := by
  induction rest generalizing v with
  | nil => left; rfl
  | cons q rest ih =>
    rw [minScoreAuxStep]
    rcases ih (Nat.min v q.2) with h | ⟨p, hp, he⟩
    · rcases Nat.le_total v q.2 with hle | hle
      · left
        rw [h, natMinIf]
        split <;> omega
      · right
        refine ⟨q, List.mem_cons_self q rest, ?_⟩
        rw [h, natMinIf]
        split <;> omega
    · right
      exact ⟨p, List.mem_cons_of_mem q hp, he⟩

/-- When no candidate scores, the scored list is empty. -/
theorem scoredCandidatesNil (score : String → String → Option Nat) (query : String)
    (candidates : List String) (h : ∀ c ∈ candidates, score c query = none) :
    scoredCandidates score query candidates = [] := by
  induction candidates with
  | nil => rfl
  | cons c cs ih =>
    have hc := h c (List.mem_cons_self c cs)
    simp [scoredCandidates, List.filterMap_cons, hc]
    intro x hx
    exact h x (List.mem_cons_of_mem c hx)

/-- The first components of the scored list form a sublist of the
candidates. -/
theorem scoredCandidatesFstSublist (score : String → String → Option Nat) (query : String)
    (candidates : List String) :
    ((scoredCandidates score query candidates).map Prod.fst).Sublist candidates := by
  induction candidates with
  | nil => simp [scoredCandidates]
  | cons c cs ih =>
    cases hc : score c query with
    | none =>
      simp only [scoredCandidates, List.filterMap_cons, hc, Option.map_none']
      exact List.Sublist.cons c ih
    | some v =>
      simp only [scoredCandidates, List.filterMap_cons, hc, Option.map_some', List.map_cons]
      exact List.Sublist.cons₂ c ih

/-- Scored lists of duplicate-free candidates are duplicate-free. -/
theorem scoredCandidatesNodup (score : String → String → Option Nat) (query : String)
    (candidates : List String) (hnd : candidates.Nodup) :
    (scoredCandidates score query candidates).Nodup :=
  List.Nodup.of_map Prod.fst
    (List.Nodup.sublist (scoredCandidatesFstSublist score query candidates) hnd)

/-- A duplicate-free list whose members all equal `a` and which holds `a`
is `[a]`. -/
theorem listAllEqNodup {α : Type} (l : List α) (a : α) (hall : ∀ x ∈ l, x = a)
    (hnd : l.Nodup) (hmem : a ∈ l) : l = [a] := by
  cases l with
  | nil => cases hmem
  | cons x xs =>
    have hx : x = a := hall x (List.mem_cons_self x xs)
    subst hx
    cases xs with
    | nil => rfl
    | cons y ys =>
      have hy : y = x := hall y (List.mem_cons_of_mem x (List.mem_cons_self y ys))
      rw [List.nodup_cons] at hnd
      exact absurd (by rw [← hy]; exact List.mem_cons_self y ys) hnd.1

/-- C5: fuzzy resolution returns nothing when no candidate matches, the
unique minimal-score candidate when exactly one attains the minimum, and
an ambiguous result holding all tied candidates when several attain it. -/
theorem resolveFileFuzzySpec (score : String → String → Option Nat) (query : String)
    (candidates : List String) (hnd : candidates.Nodup) :
    ((∀ c ∈ candidates, score c query = none) →
        resolve_file_fuzzy score query candidates = ResolveResult.notFound)
    ∧ (∀ c v, (c, v) ∈ scoredCandidates score query candidates →
        (∀ p ∈ scoredCandidates score query candidates, v ≤ p.2) →
        (∀ p ∈ scoredCandidates score query candidates, p.2 = v → p.1 = c) →
        resolve_file_fuzzy score query candidates = ResolveResult.found c)
    ∧ (∀ c₁ c₂ v, c₁ ≠ c₂ →
        (c₁, v) ∈ scoredCandidates score query candidates →
        (c₂, v) ∈ scoredCandidates score query candidates →
        (∀ p ∈ scoredCandidates score query candidates, v ≤ p.2) →
        ∃ ws, resolve_file_fuzzy score query candidates = ResolveResult.ambiguous ws
          ∧ c₁ ∈ ws ∧ c₂ ∈ ws) := by
  refine ⟨?_, ?_, ?_⟩
  · intro h
    unfold resolve_file_fuzzy
    rw [scoredCandidatesNil score query candidates h]
    rfl
  · intro c v hv hmin huniq
    unfold resolve_file_fuzzy
    have hndS := scoredCandidatesNodup score query candidates hnd
    cases hsplit : scoredCandidates score query candidates with
    | nil =>
      rw [hsplit] at hv
      cases hv
    | cons hd tl =>
      obtain ⟨c₀, v₀⟩ := hd
      rw [hsplit] at hv hmin huniq hndS
      have hle := minScoreAuxLe tl v₀
      have hmm := minScoreAuxMem tl v₀
      have hmlep : ∀ p ∈ (c₀, v₀) :: tl, minScoreAux v₀ tl ≤ p.2 := by
        intro p hp
        rcases List.mem_cons.mp hp with h | h
        · subst h; exact hle.1
        · exact hle.2 p h
      have hmattain : ∃ p ∈ (c₀, v₀) :: tl, p.2 = minScoreAux v₀ tl := by
        rcases hmm with h | ⟨p, hp, he⟩
        · exact ⟨(c₀, v₀), List.mem_cons_self _ _, h.symm⟩
        · exact ⟨p, List.mem_cons_of_mem _ hp, he.symm⟩
      have hmv : minScoreAux v₀ tl = v := by
        obtain ⟨p, hp, he⟩ := hmattain
        have h1 : minScoreAux v₀ tl ≤ v := hmlep (c, v) hv
        have h2 : v ≤ minScoreAux v₀ tl := he ▸ hmin p hp
        omega
      have hwin : List.filter (fun p => p.2 == minScoreAux v₀ tl) ((c₀, v₀) :: tl)
          = [(c, v)] := by
        apply listAllEqNodup
        · intro w hw
          have hw2 := List.mem_filter.mp hw
          have hweq : w.2 = minScoreAux v₀ tl := by simpa using hw2.2
          have hwv : w.2 = v := by rw [hweq, hmv]
          have hwc : w.1 = c := huniq w hw2.1 hwv
          obtain ⟨w1, w2⟩ := w
          simp only at hwc hwv
          rw [hwc, hwv]
        · exact List.Nodup.filter _ hndS
        · apply List.mem_filter.mpr
          refine ⟨hv, ?_⟩
          simp [hmv]
      simp only [pickResult]
      rw [hwin]
  · intro c₁ c₂ v hne h1 h2 hmin
    unfold resolve_file_fuzzy
    cases hsplit : scoredCandidates score query candidates with
    | nil =>
      rw [hsplit] at h1
      cases h1
    | cons hd tl =>
      obtain ⟨c₀, v₀⟩ := hd
      rw [hsplit] at h1 h2 hmin
      have hle := minScoreAuxLe tl v₀
      have hmm := minScoreAuxMem tl v₀
      have hmlep : ∀ p ∈ (c₀, v₀) :: tl, minScoreAux v₀ tl ≤ p.2 := by
        intro p hp
        rcases List.mem_cons.mp hp with h | h
        · subst h; exact hle.1
        · exact hle.2 p h
      have hmattain : ∃ p ∈ (c₀, v₀) :: tl, p.2 = minScoreAux v₀ tl := by
        rcases hmm with h | ⟨p, hp, he⟩
        · exact ⟨(c₀, v₀), List.mem_cons_self _ _, h.symm⟩
        · exact ⟨p, List.mem_cons_of_mem _ hp, he.symm⟩
      have hmv : minScoreAux v₀ tl = v := by
        obtain ⟨p, hp, he⟩ := hmattain
        have ha : minScoreAux v₀ tl ≤ v := hmlep (c₁, v) h1
        have hb : v ≤ minScoreAux v₀ tl := he ▸ hmin p hp
        omega
      have hin1 : (c₁, v) ∈ List.filter (fun p => p.2 == minScoreAux v₀ tl)
          ((c₀, v₀) :: tl) := by
        apply List.mem_filter.mpr
        exact ⟨h1, by simp [hmv]⟩
      have hin2 : (c₂, v) ∈ List.filter (fun p => p.2 == minScoreAux v₀ tl)
          ((c₀, v₀) :: tl) := by
        apply List.mem_filter.mpr
        exact ⟨h2, by simp [hmv]⟩
      cases hW : List.filter (fun p => p.2 == minScoreAux v₀ tl) ((c₀, v₀) :: tl) with
      | nil =>
        rw [hW] at hin1
        cases hin1
      | cons w1 rest1 =>
        cases rest1 with
        | nil =>
          rw [hW] at hin1 hin2
          have e1 : (c₁, v) = w1 := by simpa using hin1
          have e2 : (c₂, v) = w1 := by simpa using hin2
          exact absurd (congrArg Prod.fst (e1.trans e2.symm)) hne
        | cons w2 rest2 =>
          refine ⟨(w1 :: w2 :: rest2).map Prod.fst, ?_, ?_, ?_⟩
          · simp only [pickResult]
            rw [hW]
          · rw [hW] at hin1
            exact List.mem_map_of_mem Prod.fst hin1
          · rw [hW] at hin2
            exact List.mem_map_of_mem Prod.fst hin2

/-- Witness for C5: with the demo score, the unique exact match wins. -/
theorem resolveFileFuzzySpecWitness :
    resolve_file_fuzzy demoScore "alpha" ["alpha", "beta"] = ResolveResult.found "alpha" :=
  (resolveFileFuzzySpec demoScore "alpha" ["alpha", "beta"] (by decide)).2.1 "alpha" 0
    (by decide) (by decide) (by decide)

/-! ## Claim C7 — archived candidates in completion -/

/-- Every completion result is an active stem or an archived stem under
the `archive/` prefix. -/
theorem completeFilesMem (fm : String → String → Bool) (stem : String)
    (fileStems archivedStems : List String) (r : String)
    (hr : r ∈ complete_files_with_fuzzy fm stem fileStems archivedStems) :
    r ∈ fileStems ∨ ∃ s ∈ archivedStems, r = "archive/" ++ s := by
  simp only [complete_files_with_fuzzy] at hr
  split at hr <;>
  · rcases List.mem_append.mp hr with h | h
    · exact Or.inl (List.mem_of_mem_filter h)
    · right
      obtain ⟨s, hs, he⟩ := List.mem_map.mp h
      exact ⟨s, List.mem_of_mem_filter hs, he.symm⟩

/-- C7: archived candidates are considered only when the `archived` flag is
set or the query starts with `archive/` — otherwise every result is an
active note stem — and in all cases every result that is not an active
stem is an archived stem namespaced under `archive/`. -/
theorem completeExistingNameArchivePolicy (fm : String → String → Bool)
    (noteStems archiveStems : List String) (includeArchived archiveDirExists : Bool)
    (incomplete : String) :
    (includeArchived = false → pyStartsWith incomplete "archive/" = false →
      ∀ r ∈ complete_existing_name fm noteStems archiveStems includeArchived
          archiveDirExists incomplete, r ∈ noteStems)
    ∧ (∀ r ∈ complete_existing_name fm noteStems archiveStems includeArchived
          archiveDirExists incomplete,
        r ∈ noteStems ∨ ∃ s ∈ archiveStems, r = "archive/" ++ s) := by
  constructor
  · intro hflag hpath r hr
    simp only [complete_existing_name, hflag, hpath] at hr
    rcases completeFilesMem _ _ _ _ r hr with h | ⟨s, hs, _⟩
    · simp only [Bool.false_eq_true, if_false, ite_false] at h
      exact List.mem_of_mem_filter h
    · simp at hs
  · intro r hr
    simp only [complete_existing_name] at hr
    rcases completeFilesMem _ _ _ _ r hr with h | ⟨s, hs, he⟩
    · left
      split at h
      · cases h
      · exact List.mem_of_mem_filter h
    · right
      refine ⟨s, ?_, he⟩
      split at hs
      · exact hs
      · cases hs

/-- Witness for C7: with the flag unset and a plain query, a result is an
active stem. -/
theorem completeExistingNameArchivePolicyWitness : ("proj" : String) ∈ ["proj", "other"] :=
  (completeExistingNameArchivePolicy demoFuzzy ["proj", "other"] ["old"] false true "pr").1
    rfl (by decide) "proj" (by decide)

/-! ## Claim C3 — converting an item creates a task -/

/-- Inserting the description item after a content whose last line is
`## Description` appends the item at the end. -/
theorem insertDescriptionAppend (xs : List String) (item : String) :
    insertDescription (xs ++ ["## Description"]) item
      = insertDescription xs item ++ ["## Description", item] := by
  have hd : pyEndsWith "## Description" "## Description" = true := by decide
  induction xs with
  | nil => simp [insertDescription, hd]
  | cons l ls ih =>
    by_cases h : pyEndsWith l "## Description" = true <;>
      simp [insertDescription, h, ih]

/-- Writing a file makes it readable with exactly the written content. -/
theorem getFileSetFile (files : List (String × List String)) (name : String)
    (c : List String) : getFile (setFile files name c) name = some c := by
  induction files with
  | nil => simp [setFile, getFile]
  | cons f fs ih =>
    by_cases h : f.1 = name <;> simp [setFile, getFile, h, ih]

/-- A non-heading entry inserted at the end of a section body stays inside
the section (before any following `## ` heading). -/
theorem entryInSectionEnd (entry : String) (body : List String)
    (h : pyStartsWith entry "## " = false) :
    entry ∈ (insertAtSectionEnd entry body).takeWhile (fun x => !pyStartsWith x "## ") := by
  induction body with
  | nil =>
    simp only [insertAtSectionEnd]
    rw [List.takeWhile_cons_of_pos (by simp [h])]
    exact List.mem_cons_self _ _
  | cons l ls ih =>
    by_cases h1 : pyStartsWith l "## " = true
    · have hstep : insertAtSectionEnd entry (l :: ls) = entry :: l :: ls := by
        simp [insertAtSectionEnd, h1]
      rw [hstep, List.takeWhile_cons_of_pos (by simp [h])]
      exact List.mem_cons_self _ _
    · have hstep : insertAtSectionEnd entry (l :: ls) = l :: insertAtSectionEnd entry ls := by
        simp [insertAtSectionEnd, h1]
      rw [hstep, List.takeWhile_cons_of_pos (by simp [h1])]
      exact List.mem_cons_of_mem l ih

/-- The appended entry lands inside the `## Tasks` section. -/
theorem entryInTasksSection (entry : String) (lines : List String)
    (hthere : lines.any (fun l => pyStrip l == "## Tasks") = true)
    (hentry : pyStartsWith entry "## " = false) :
    entry ∈ tasksSection (addTaskAux entry lines) := by
  induction lines with
  | nil => simp at hthere
  | cons l ls ih =>
    by_cases h1 : pyStrip l = "## Tasks"
    · simp only [addTaskAux, h1, if_true, tasksSection, ite_true]
      exact entryInSectionEnd entry ls hentry
    · have hthere' : ls.any (fun l => pyStrip l == "## Tasks") = true := by
        simp only [List.any_cons, Bool.or_eq_true, beq_iff_eq] at hthere
        rcases hthere with h | h
        · exact absurd h h1
        · exact h
      simp only [addTaskAux, h1, if_false, tasksSection, ite_false]
      exact ih hthere'

/-- The task checklist entry is not a `## ` heading. -/
theorem taskEntryNotHeading (title target : String) :
    pyStartsWith (taskEntry title target) "## " = false := rfl

/-- C3: converting an item with project and task name (no collision)
writes a new file at `<project>.<task_name>.md` whose content ends with
the `## Description` heading followed by the original item text, and
appends to the `## Tasks` section of the project a checklist entry
pointing at `<project>.<task_name>` whose glyph is the `todo` glyph
`' '`. -/
theorem convertCreatesTaskAndEntry (project taskName itemText date : String)
    (files : List (String × List String)) (projLines : List String)
    (hthere : projLines.any (fun l => pyStrip l == "## Tasks") = true) :
    getFile (setFile files (project ++ "." ++ taskName ++ ".md")
        (insertDescription (taskTemplate taskName project (format_title project) date)
          itemText))
      (project ++ "." ++ taskName ++ ".md")
      = some (insertDescription (taskTemplate taskName project (format_title project) date)
          itemText)
    ∧ List.IsSuffix ["## Description", itemText]
        (insertDescription (taskTemplate taskName project (format_title project) date)
          itemText)
    ∧ taskEntry (format_title taskName) (project ++ "." ++ taskName)
        ∈ tasksSection (add_task_to_project projLines (format_title taskName)
            (project ++ "." ++ taskName))
    ∧ String.singleton (glyph Status.todo) = " " := by
  refine ⟨getFileSetFile files _ _, ?_, ?_, rfl⟩
  · have hsplit : taskTemplate taskName project (format_title project) date
        = ["---", "created: " ++ date, "modified: " ++ date, "type: task",
           "status: todo", "due:", "priority:", "parent: " ++ project, "---",
           "# " ++ taskName, "", "[< " ++ format_title project ++ "](" ++ project ++ ")",
           ""] ++ ["## Description"] := rfl
    rw [hsplit, insertDescriptionAppend]
    exact ⟨_, rfl⟩
  · exact entryInTasksSection _ projLines hthere (taskEntryNotHeading _ _)

/-- Witness for C3: the entry lands in the `## Tasks` section of a small
project file. -/
theorem convertCreatesTaskAndEntryWitness :
    taskEntry "t1" "demo.t1" ∈ tasksSection (add_task_to_project
      ["# Demo", "", "## Tasks"] "t1" "demo.t1") := by
  have h := (convertCreatesTaskAndEntry "demo" "t1" "buy milk" "2026-01-01" []
    ["# Demo", "", "## Tasks"] (by decide)).2.2.1
  simpa using h

/-! ## Claim C6 — status propagation to the parent checkbox -/

theorem isLeadCharsSelf (l : List Char) : isLeadChars l l = true := by
  induction l with
  | nil => rfl
  | cons c cs ih => simp [isLeadChars, ih]

/-- Helper `breakOn` splits at the first occurrence of the separator. -/
theorem breakOnAppend (c : Char) (ts rest : List Char) (h : c ∉ ts) :
    breakOn c (ts ++ c :: rest) = some (ts, rest) := by
  induction ts with
  | nil => simp [breakOn]
  | cons x ts ih =>
    have hx : ¬(x = c) := fun hh => h (hh ▸ List.mem_cons_self x ts)
    have ih' := ih (fun hh => h (List.mem_cons_of_mem x hh))
    simp [breakOn, hx, ih']

theorem parseChecklistStep (g : Char) (rest : List Char) :
    parseChecklist ('-' :: ' ' :: '[' :: g :: ']' :: ' ' :: '[' :: rest)
      = if g ∈ glyphChars then (breakOn ']' rest).bind (fun p => parseAfterTitle g p.1 p.2)
        else none := rfl

theorem parseAfterTitleStep (g : Char) (title rest2 : List Char) :
    parseAfterTitle g title ('(' :: rest2)
      = if title.isEmpty then none
        else (breakOn ')' rest2).bind (finishLink g title) := rfl

/-- A well-formed checklist line parses back into its components. -/
theorem parseChecklistMk (g : Char) (title link : List Char)
    (hg : g ∈ glyphChars) (ht : title ≠ []) (ht2 : ']' ∉ title) (hl : ')' ∉ link) :
    parseChecklist (checklistChars g title link) = some (g, title, link) := by
  have hte : title.isEmpty = false := by
    cases title with
    | nil => exact absurd rfl ht
    | cons a l => rfl
  unfold checklistChars
  rw [parseChecklistStep, if_pos hg, breakOnAppend ']' title _ ht2, Option.some_bind]
  dsimp only
  rw [parseAfterTitleStep, if_neg (by simp [hte]), breakOnAppend ')' link [] hl,
    Option.some_bind]
  rfl

theorem scanTitleAppend (ts rem : List Char) (h : ']' ∉ ts) :
    scanTitle (ts ++ ']' :: '(' :: rem) = some rem := by
  induction ts with
  | nil => simp [scanTitle]
  | cons c ts ih =>
    have hc : ¬(c = ']') := fun hh => h (hh ▸ List.mem_cons_self c ts)
    have ih' := ih (fun hh => h (List.mem_cons_of_mem c hh))
    simp [scanTitle, hc, ih']

theorem titleRestAppend (ts rem : List Char) (hne : ts ≠ []) (h : ']' ∉ ts) :
    titleRest (ts ++ ']' :: '(' :: rem) = some rem := by
  cases ts with
  | nil => exact absurd rfl hne
  | cons c ts =>
    have hc : ¬(c = ']') := fun hh => h (hh ▸ List.mem_cons_self c ts)
    simp only [List.cons_append, titleRest, hc, if_false, ite_false]
    exact scanTitleAppend ts rem (fun hh => h (List.mem_cons_of_mem c hh))

theorem matchAtStep (task : List Char) (g : Char) (rest : List Char) :
    matchAt task ('-' :: ' ' :: '[' :: g :: ']' :: ' ' :: '[' :: rest)
      = if g ∈ glyphChars then
          (titleRest rest).bind (fun rem => if checkLink task rem then some g else none)
        else none := rfl

theorem searchLineStep (task : List Char) (c : Char) (cs : List Char) :
    searchLine task (c :: cs)
      = match matchAt task (c :: cs) with
        | some g => some g
        | none => searchLine task cs := rfl

/-- The pattern finds a well-formed checklist line at position 0. -/
theorem searchLineMk (task : List Char) (g : Char) (title link : List Char)
    (hg : g ∈ glyphChars) (ht : title ≠ []) (ht2 : ']' ∉ title)
    (hck : checkLink task (link ++ [')']) = true) :
    searchLine task (checklistChars g title link) = some g := by
  unfold checklistChars
  rw [searchLineStep, matchAtStep, if_pos hg, titleRestAppend title _ ht ht2]
  simp only [Option.some_bind]
  rw [if_pos hck]

/-- Every status glyph is in the checkbox vocabulary of the test
pattern. -/
theorem glyphMem (s : Status) : glyph s ∈ glyphChars := by
  cases s <;> simp [glyph, glyphChars]

theorem checkLinkSelf (task : List Char) : checkLink task (task ++ [')']) = true := by
  simp [checkLink, isLeadCharsSelf]

/-- A well-formed checklist line referencing the note is a sync target. -/
theorem syncTargetMk (noteId title : String) (g : Char)
    (hg : g ∈ glyphChars) (ht : title.data ≠ []) (ht2 : ']' ∉ title.data)
    (hl : ')' ∉ noteId.data) :
    syncTarget noteId (checklistLine g title noteId) = true := by
  unfold syncTarget checklistLine
  rw [show (String.mk (checklistChars g title.data noteId.data)).data
      = checklistChars g title.data noteId.data from rfl]
  rw [parseChecklistMk g title.data noteId.data hg ht ht2 hl]
  simp

/-- Rewriting the glyph of a well-formed checklist line keeps title and
link and changes only the glyph. -/
theorem rewriteGlyphMk (s : Status) (noteId title : String) (g : Char)
    (hg : g ∈ glyphChars) (ht : title.data ≠ []) (ht2 : ']' ∉ title.data)
    (hl : ')' ∉ noteId.data) :
    rewriteGlyph s (checklistLine g title noteId) = checklistLine (glyph s) title noteId := by
  unfold rewriteGlyph checklistLine
  rw [show (String.mk (checklistChars g title.data noteId.data)).data
      = checklistChars g title.data noteId.data from rfl]
  rw [parseChecklistMk g title.data noteId.data hg ht ht2 hl]

/-- Synchronization skips non-matching lines and rewrites the first
matching one. -/
theorem syncSkipsPre (noteId : String) (s : Status) (pre post : List String)
    (target : String)
    (hpre : ∀ l ∈ pre, syncTarget noteId l = false)
    (htgt : syncTarget noteId target = true) :
    syncParentCheckbox noteId s (pre ++ target :: post)
      = pre ++ rewriteGlyph s target :: post := by
  induction pre with
  | nil => simp [syncParentCheckbox, htgt]
  | cons l ls ih =>
    have h1 := hpre l (List.mem_cons_self l ls)
    have ih' := ih (fun x hx => hpre x (List.mem_cons_of_mem l hx))
    simp [syncParentCheckbox, h1, ih']

/-- The checkbox extraction skips lines where the pattern does not
occur. -/
theorem getCheckboxSkipsPre (task : String) (pre rest : List String)
    (hpre : ∀ l ∈ pre, searchLine task.data l.data = none) :
    get_task_checkbox (pre ++ rest) task = get_task_checkbox rest task := by
  induction pre with
  | nil => rfl
  | cons l ls ih =>
    have h1 := hpre l (List.mem_cons_self l ls)
    have ih2 := ih (fun x hx => hpre x (List.mem_cons_of_mem l hx))
    simp only [List.cons_append, get_task_checkbox, h1]
    exact ih2

theorem getCheckboxStep (task : String) (l : String) (ls : List String) :
    get_task_checkbox (l :: ls) task
      = match searchLine task.data l.data with
        | some g => some g
        | none => get_task_checkbox ls task := rfl

/-- C6: for every status and every parent whose `## Tasks` checklist holds
a line linking to the note (and no earlier matching line),
synchronization rewrites exactly that line, replacing only the glyph by
the image of the status under the total mapping `todo -> ' '`,
`done -> 'x'`, `doing -> '.'`, `dropped -> 'o'`, `blocked -> '~'`; the
extracted checkbox afterwards is that glyph, and setting the note status
rewrites its `status:` front-matter line. -/
theorem setStatusSyncsParent (s : Status) (noteId title : String) (g : Char)
    (pre post noteLines : List String)
    (hg : g ∈ glyphChars)
    (ht : title.data ≠ [])
    (ht2 : ']' ∉ title.data)
    (hl : ')' ∉ noteId.data)
    (hpre : ∀ l ∈ pre, syncTarget noteId l = false)
    (hpre2 : ∀ l ∈ pre, searchLine noteId.data l.data = none) :
    syncParentCheckbox noteId s (pre ++ checklistLine g title noteId :: post)
      = pre ++ checklistLine (glyph s) title noteId :: post
    ∧ get_task_checkbox (pre ++ checklistLine (glyph s) title noteId :: post) noteId
      = some (glyph s)
    ∧ ((∃ l ∈ noteLines, pyStartsWith l "status:" = true) →
        ("status: " ++ statusName s) ∈ setStatusField noteLines s)
    ∧ glyph Status.todo = ' ' ∧ glyph Status.done = 'x' ∧ glyph Status.doing = '.'
    ∧ glyph Status.dropped = 'o' ∧ glyph Status.blocked = '~' := by
  refine ⟨?_, ?_, ?_, rfl, rfl, rfl, rfl, rfl⟩
  · rw [syncSkipsPre noteId s pre post _ hpre (syncTargetMk noteId title g hg ht ht2 hl)]
    rw [rewriteGlyphMk s noteId title g hg ht ht2 hl]
  · rw [getCheckboxSkipsPre noteId pre _ hpre2]
    rw [getCheckboxStep]
    rw [show (checklistLine (glyph s) title noteId).data
        = checklistChars (glyph s) title.data noteId.data from rfl]
    rw [searchLineMk noteId.data (glyph s) title.data noteId.data (glyphMem s) ht ht2
      (checkLinkSelf noteId.data)]
  · rintro ⟨l, hl2, hstart⟩
    unfold setStatusField
    apply List.mem_map.mpr
    exact ⟨l, hl2, by simp [hstart]⟩

/-- Witness for C6: the spec scenario — `- [ ] [T1](demo.t1)` becomes
`- [x] [T1](demo.t1)` and the status field becomes `done`. -/
theorem setStatusSyncsParentWitness :
    syncParentCheckbox "demo.t1" Status.done ["- [ ] [T1](demo.t1)"]
      = ["- [x] [T1](demo.t1)"]
    ∧ get_task_checkbox ["- [x] [T1](demo.t1)"] "demo.t1" = some 'x'
    ∧ ("status: done" : String) ∈ setStatusField ["status: todo"] Status.done := by
  have h := setStatusSyncsParent Status.done "demo.t1" "T1" ' ' [] [] ["status: todo"]
    (by decide) (by decide) (by decide) (by decide)
    (fun l hl => absurd hl (List.not_mem_nil l))
    (fun l hl => absurd hl (List.not_mem_nil l))
  exact ⟨h.1, h.2.1, h.2.2.1 ⟨"status: todo", List.mem_cons_self _ _, by decide⟩⟩

end Cortex
